import Mathlib

/-!
# SIMD vector-quantised MAC custom function unit — software emulation

Shallow embedding of `proj/simd/src/software_cfu.cc` (the CFU engine), of the
named operations of `proj/simd/src/simd_cfu.h` and of the harness functions
`check_cfu` / `do_test_cfu` of `proj/simd/src/proj_menu.cc`.

Conventions of the embedding

* `uint32_t`, `uint64_t`, `uint16_t`, `uint8_t` values are natural numbers; every
  place where the C++ code narrows or can wrap carries an explicit `%`.
* `int8_t` and `int32_t` values are integers; the conversions into those types
  are the twos-complement readings `toInt8` and `toInt32`.
* the three globals `clusters`, `weights`, `acc` are the fields of `CfuState`,
  which `software_cfu` takes and gives back next to its return value.
* `printf` calls have no effect on the values and are left out.
-/

namespace SimdCfu

/-! ## Fixed-width conversions -/

/-- Conversion of an unsigned value to `int8_t`: the twos-complement reading of
its low eight bits. -/
def toInt8 (n : Nat) : Int :=
  if n % 256 < 128 then ((n % 256 : Nat) : Int) else ((n % 256 : Nat) : Int) - 256

/-- Conversion of an integer to `int32_t`: the twos-complement reading of its
low 32 bits (the identity on `[-2^31, 2^31)`). -/
def toInt32 (x : Int) : Int :=
  (x + 2147483648) % 4294967296 - 2147483648

/-- Conversion of a signed integer to `uint32_t`: reduction modulo `2^32`. -/
def toUInt32 (x : Int) : Nat :=
  (x % 4294967296).toNat

/-! ## `software_cfu.cc` -/

/-- Source `extract_byte`:
`static_cast<int8_t>(0xff & (word >> (num * 8)))`. -/
def extract_byte (word : Nat) (num : Nat) : Int :=
  toInt8 (0xff &&& (word >>> (num * 8)))

/-- Source `extract_codes`:
`static_cast<uint8_t>(0b11 & (word >> (num * 2)))`. -/
def extract_codes (word : Nat) (num : Nat) : Nat :=
  (0b11 &&& (word >>> (num * 2))) % 256

/-- Source `extract_weight_set`:
`static_cast<uint16_t>(0xFFFF & (word >> (num * 16)))`. -/
def extract_weight_set (word : Nat) (num : Nat) : Nat :=
  (0xFFFF &&& (word >>> (num * 16))) % 65536

/-- One iteration of the `for` loop of `multiply_add`: the running `sum` on entry
and the loop index `i` give the running `sum` on exit.  The two products are
`int` products of promoted `int8_t` values, converted by `int32_t(...)`, and both
additions are `int32_t` additions; each is followed by the reduction `toInt32`,
which `multiply_add_body_exact` shows never changes the value. -/
def multiply_add_body (rs1 rs2 clus weights_codes : Nat) (sum : Int) (i : Nat) : Int :=
  let value := extract_byte clus (extract_codes weights_codes i)
  let filter := extract_byte rs1 i
  let sum := toInt32 (sum + toInt32 (value * filter))
  let value := extract_byte clus (extract_codes weights_codes (i + 4))
  let filter := extract_byte rs2 i
  toInt32 (sum + toInt32 (value * filter))

/-- Source `multiply_add`: `sum = 0`, then the loop body for `i = 0, 1, 2, 3`. -/
def multiply_add (rs1 rs2 clus weights_codes : Nat) : Int :=
  (List.range 4).foldl (multiply_add_body rs1 rs2 clus weights_codes) 0

/-- The three globals of `software_cfu.cc`: `clusters` (`uint32_t`), `weights`
(`uint64_t`) and `acc` (`uint32_t`). -/
structure CfuState where
  clusters : Nat
  weights : Nat
  acc : Nat
deriving DecidableEq

/-- The globals at program start: the source sets each to `0`. -/
def CfuState.init : CfuState := ⟨0, 0, 0⟩

/-- Source `software_cfu`: the returned `uint32_t` and the globals after the call. -/
def software_cfu (s : CfuState) (funct3 funct7 : Int) (rs1 rs2 : Nat) : Nat × CfuState :=
  if funct3 = 0 then
    let s := { s with clusters := rs2 }
    (s.clusters, s)
  else if funct3 = 1 then
    if Int.land funct7 0b100 ≠ 0 then
      let s := { s with weights := ((rs2 <<< 32) % 18446744073709551616) ||| rs1 }
      (s.weights % 4294967296, s)
    else
      (0, s)
  else if funct3 = 2 then
    if funct7 = 0b1000 then
      let s := { s with acc := 0 }
      (s.acc, s)
    else if funct7 = 0b10000 then
      let s := { s with acc := (s.acc + toUInt32 (multiply_add rs1 rs2 s.clusters
        (extract_weight_set s.weights 0))) % 4294967296 }
      (s.acc, s)
    else if funct7 = 0b10001 then
      let s := { s with acc := (s.acc + toUInt32 (multiply_add rs1 rs2 s.clusters
        (extract_weight_set s.weights 1))) % 4294967296 }
      (s.acc, s)
    else if funct7 = 0b10010 then
      let s := { s with acc := (s.acc + toUInt32 (multiply_add rs1 rs2 s.clusters
        (extract_weight_set s.weights 2))) % 4294967296 }
      (s.acc, s)
    else if funct7 = 0b10011 then
      let s := { s with acc := (s.acc + toUInt32 (multiply_add rs1 rs2 s.clusters
        (extract_weight_set s.weights 3))) % 4294967296 }
      (s.acc, s)
    else
      (s.acc, s)
  else
    (0, s)

/-! ## `simd_cfu.h` and the harness of `proj_menu.cc` -/

/-- Modelled from the spec: the preprocessor definitions `cfu_op0`, `cfu_op1`,
`cfu_op2` of `cfu.h` (not among the sources).  The spec describes the calling convention as mapping a
named operation onto the opcode entry point: `cfu_opN(funct7, a, b)` is the call
with selector `N`, modifier `funct7` and operands `a`, `b`. -/
def cfu_op (funct3 funct7 : Int) (rs1 rs2 : Nat) (s : CfuState) : Nat × CfuState :=
  software_cfu s funct3 funct7 rs1 rs2

/-- Header `cfu_storeCodebook(a)`: `cfu_op0(0, 0, a)`. -/
def cfu_storeCodebook (a : Nat) (s : CfuState) : Nat × CfuState := cfu_op 0 0 0 a s

/-- Header `cfu_storeWeights(a, b)`: `cfu_op1(0b100, a, b)`. -/
def cfu_storeWeights (a b : Nat) (s : CfuState) : Nat × CfuState := cfu_op 1 0b100 a b s

/-- Header `cfu_reset()`: `cfu_op2(0b1000, 0, 0)`. -/
def cfu_reset (s : CfuState) : Nat × CfuState := cfu_op 2 0b1000 0 0 s

/-- Header `cfu_accumulate_0(a, b)`: `cfu_op2(0b10000, a, b)`. -/
def cfu_accumulate_0 (a b : Nat) (s : CfuState) : Nat × CfuState := cfu_op 2 0b10000 a b s

/-- Header `cfu_accumulate_1(a, b)`: `cfu_op2(0b10001, a, b)`. -/
def cfu_accumulate_1 (a b : Nat) (s : CfuState) : Nat × CfuState := cfu_op 2 0b10001 a b s

/-- Header `cfu_accumulate_2(a, b)`: `cfu_op2(0b10010, a, b)`. -/
def cfu_accumulate_2 (a b : Nat) (s : CfuState) : Nat × CfuState := cfu_op 2 0b10010 a b s

/-- Header `cfu_accumulate_3(a, b)`: `cfu_op2(0b10011, a, b)`. -/
def cfu_accumulate_3 (a b : Nat) (s : CfuState) : Nat × CfuState := cfu_op 2 0b10011 a b s

/-- Header `cfu_read()`: `cfu_op2(0, 0, 0)`. -/
def cfu_read (s : CfuState) : Nat × CfuState := cfu_op 2 0 0 0 s

/-- Source `check_cfu`: the value `actual` it reads, whether it prints `OK`
(`actual == expected`), and the globals after the round. -/
def check_cfu (codebook weightsCodes_0 weightsCodes_1 filters_0 filters_1 expected : Nat)
    (s : CfuState) : Nat × Bool × CfuState :=
  let s := (cfu_storeCodebook codebook s).2
  let s := (cfu_storeWeights weightsCodes_0 weightsCodes_1 s).2
  let s := (cfu_accumulate_0 filters_0 filters_1 s).2
  let s := (cfu_accumulate_1 filters_0 filters_1 s).2
  let s := (cfu_accumulate_2 filters_0 filters_1 s).2
  let s := (cfu_accumulate_3 filters_0 filters_1 s).2
  let r := cfu_read s
  (r.1, r.1 == expected, r.2)

/-- Source `do_test_cfu`: one reset, then the three rounds; gives the three pairs
(value read, `OK` printed) in order and the globals at the end. -/
def do_test_cfu (s : CfuState) : List (Nat × Bool) × CfuState :=
  let s := (cfu_reset s).2
  let r1 := check_cfu 0x04030201 0x01FFFA32 0x12ED547A 0x01010101 0x01010101 83 s
  let r2 := check_cfu 0x04030201 0x01FFFA32 0x12ED547A 0x05060708 0x01020304 491 r1.2.2
  let r3 := check_cfu 0x04030201 0x01FFFA32 0x12ED547A 0xFFFFFFFF 0xFBF6FFFE 286 r2.2.2
  ([(r1.1, r1.2.1), (r2.1, r2.2.1), (r3.1, r3.2.1)], r3.2.2)

/-! ## The vocabulary of the specification -/

/-- Spec wording: byte `n` of `w`, `(w >> 8n) & 0xFF`, read as a twos-complement
signed 8-bit value. -/
def sbyte_spec (w n : Nat) : Int :=
  if (w >>> (8 * n)) &&& 0xFF < 128 then (((w >>> (8 * n)) &&& 0xFF : Nat) : Int)
  else (((w >>> (8 * n)) &&& 0xFF : Nat) : Int) - 256

/-- Spec wording: 2-bit code `n` of a weight-code set, `(w >> 2n) & 3`. -/
def code_spec (w n : Nat) : Nat :=
  (w >>> (2 * n)) &&& 3

/-- Spec wording: weight-code set `k` of the weight-code word,
`(word >> 16k) & 0xFFFF`. -/
def weightSet_spec (word k : Nat) : Nat :=
  (word >>> (16 * k)) &&& 0xFFFF

/-- Spec wording of the MAC primitive: the exact integer sum over `i` in `0..3`
of centroid(code `i`) times byte `i` of `A` plus centroid(code `i+4`) times
byte `i` of `B`. -/
def MAC_spec (a b codebook weightSet : Nat) : Int :=
  ((List.range 4).map fun i =>
    sbyte_spec codebook (code_spec weightSet i) * sbyte_spec a i
      + sbyte_spec codebook (code_spec weightSet (i + 4)) * sbyte_spec b i).sum

/-- A call of the engine: selector, modifier, operand A, operand B. -/
structure Call where
  funct3 : Int
  funct7 : Int
  rs1 : Nat
  rs2 : Nat
deriving DecidableEq

/-- The engine run over a list of calls in order: the returned words, in call
order, and the final globals. -/
def runCalls : CfuState → List Call → List Nat × CfuState
  | s, [] => ([], s)
  | s, c :: cs =>
    let r := software_cfu s c.funct3 c.funct7 c.rs1 c.rs2
    let rest := runCalls r.2 cs
    (r.1 :: rest.1, rest.2)

/-- An accumulate request: the set index `k` and the operand pair. -/
structure AccCall where
  k : Nat
  a : Nat
  b : Nat
deriving DecidableEq

/-- The engine call of an accumulate request: selector 2, modifier `0b10000 + k`. -/
def AccCall.toCall (c : AccCall) : Call := ⟨2, 0b10000 + (c.k : Int), c.a, c.b⟩

/-- The MAC contribution of an accumulate request under a fixed codebook and
weight-code word. -/
def AccCall.contribution (codebook weightWord : Nat) (c : AccCall) : Int :=
  MAC_spec c.a c.b codebook (weightSet_spec weightWord c.k)

/-! ## The extraction helpers with their range conditions explicit -/

/-- Source `extract_byte` with the range condition of its shift explicit: `none`
when the shift amount `num * 8` exceeds 24, that is when `num` does not index one
of the four bytes of the 32-bit word. -/
def extract_byte_checked (word : Nat) (num : Nat) : Option Int :=
  if num * 8 ≤ 24 then some (extract_byte word num) else none

/-- Source `extract_codes` with the range condition of its shift explicit: `none`
when the shift amount `num * 2` exceeds 14, that is when `num` does not index one
of the eight codes of the 16-bit word. -/
def extract_codes_checked (word : Nat) (num : Nat) : Option Nat :=
  if num * 2 ≤ 14 then some (extract_codes word num) else none

/-- Source `extract_weight_set` with the range condition of its shift explicit:
`none` when the shift amount `num * 16` exceeds 48, that is when `num` does not
index one of the four sets of the 64-bit word. -/
def extract_weight_set_checked (word : Nat) (num : Nat) : Option Nat :=
  if num * 16 ≤ 48 then some (extract_weight_set word num) else none

/-- The loop body of `multiply_add` over the checked helpers: `none` as soon as
one extraction is out of range. -/
def multiply_add_body_checked (rs1 rs2 clus weights_codes : Nat) (sum : Option Int) (i : Nat) :
    Option Int := do
  let sum ← sum
  let code ← extract_codes_checked weights_codes i
  let value ← extract_byte_checked clus code
  let filter ← extract_byte_checked rs1 i
  let sum := toInt32 (sum + toInt32 (value * filter))
  let code ← extract_codes_checked weights_codes (i + 4)
  let value ← extract_byte_checked clus code
  let filter ← extract_byte_checked rs2 i
  pure (toInt32 (sum + toInt32 (value * filter)))

/-- Source `multiply_add` over the checked helpers. -/
def multiply_add_checked (rs1 rs2 clus weights_codes : Nat) : Option Int :=
  (List.range 4).foldl (multiply_add_body_checked rs1 rs2 clus weights_codes) (some 0)

/-- One accumulate arm of `software_cfu` over the checked helpers, for the set
index `num` written in that arm. -/
def accumulate_checked (s : CfuState) (rs1 rs2 : Nat) (num : Nat) : Option (Nat × CfuState) := do
  let set ← extract_weight_set_checked s.weights num
  let mac ← multiply_add_checked rs1 rs2 s.clusters set
  let s := { s with acc := (s.acc + toUInt32 mac) % 4294967296 }
  pure (s.acc, s)

/-- Source `software_cfu` over the checked helpers: `none` when some extraction
reached from the call is out of range. -/
def software_cfu_checked (s : CfuState) (funct3 funct7 : Int) (rs1 rs2 : Nat) :
    Option (Nat × CfuState) :=
  if funct3 = 0 then
    let s := { s with clusters := rs2 }
    some (s.clusters, s)
  else if funct3 = 1 then
    if Int.land funct7 0b100 ≠ 0 then
      let s := { s with weights := ((rs2 <<< 32) % 18446744073709551616) ||| rs1 }
      some (s.weights % 4294967296, s)
    else
      some (0, s)
  else if funct3 = 2 then
    if funct7 = 0b1000 then
      let s := { s with acc := 0 }
      some (s.acc, s)
    else if funct7 = 0b10000 then accumulate_checked s rs1 rs2 0
    else if funct7 = 0b10001 then accumulate_checked s rs1 rs2 1
    else if funct7 = 0b10010 then accumulate_checked s rs1 rs2 2
    else if funct7 = 0b10011 then accumulate_checked s rs1 rs2 3
    else
      some (s.acc, s)
  else
    some (0, s)

/-! ## Lemmas on the conversions and the extraction helpers -/

theorem and_ff (x : Nat) : 0xff &&& x = x % 256 := by
  rw [Nat.and_comm]; exact Nat.and_pow_two_sub_one_eq_mod x 8

theorem and_3 (x : Nat) : x &&& 3 = x % 4 := Nat.and_pow_two_sub_one_eq_mod x 2

theorem and_ffff (x : Nat) : x &&& 0xFFFF = x % 65536 := Nat.and_pow_two_sub_one_eq_mod x 16

theorem extract_byte_eq_sbyte (w n : Nat) : extract_byte w n = sbyte_spec w n := by
  unfold extract_byte sbyte_spec toInt8
  rw [and_ff, Nat.and_comm _ 0xFF, and_ff, Nat.mul_comm, Nat.mod_mod]

theorem extract_codes_eq_code (w n : Nat) : extract_codes w n = code_spec w n := by
  unfold extract_codes code_spec
  rw [Nat.and_comm 0b11, and_3, and_3, Nat.mul_comm]
  omega

theorem extract_byte_bounds (w n : Nat) : -128 ≤ extract_byte w n ∧ extract_byte w n ≤ 127 := by
  unfold extract_byte toInt8
  split <;> omega

theorem product_bounds {a b : Int} (ha : -128 ≤ a ∧ a ≤ 127) (hb : -128 ≤ b ∧ b ≤ 127) :
    -16256 ≤ a * b ∧ a * b ≤ 16384 := by
  constructor <;> nlinarith [ha.1, ha.2, hb.1, hb.2]

theorem toInt32_of_bounds {x : Int} (h1 : -2147483648 ≤ x) (h2 : x < 2147483648) : toInt32 x = x := by
  unfold toInt32; omega


theorem multiply_add_unroll (rs1 rs2 clus wc : Nat) :
    multiply_add rs1 rs2 clus wc =
      multiply_add_body rs1 rs2 clus wc
        (multiply_add_body rs1 rs2 clus wc
          (multiply_add_body rs1 rs2 clus wc
            (multiply_add_body rs1 rs2 clus wc 0 0) 1) 2) 3 := by
  simp [multiply_add, List.range_succ]

theorem multiply_add_body_exact (rs1 rs2 clus wc : Nat) (sum : Int) (i : Nat)
    (h1 : -100000 ≤ sum) (h2 : sum ≤ 100000) :
    multiply_add_body rs1 rs2 clus wc sum i =
      sum + (extract_byte clus (extract_codes wc i) * extract_byte rs1 i
        + extract_byte clus (extract_codes wc (i + 4)) * extract_byte rs2 i) := by
  have p1 := product_bounds (extract_byte_bounds clus (extract_codes wc i)) (extract_byte_bounds rs1 i)
  have p2 := product_bounds (extract_byte_bounds clus (extract_codes wc (i + 4)))
    (extract_byte_bounds rs2 i)
  unfold multiply_add_body
  simp only
  rw [toInt32_of_bounds (x := _ * _) (by omega) (by omega)]
  rw [toInt32_of_bounds (x := _ * _) (by omega) (by omega)]
  rw [toInt32_of_bounds (x := sum + _) (by omega) (by omega)]
  rw [toInt32_of_bounds (by omega) (by omega)]
  omega

theorem multiply_add_term_bounds (rs1 rs2 clus wc : Nat) (i : Nat) :
    -32512 ≤ extract_byte clus (extract_codes wc i) * extract_byte rs1 i
        + extract_byte clus (extract_codes wc (i + 4)) * extract_byte rs2 i ∧
    extract_byte clus (extract_codes wc i) * extract_byte rs1 i
        + extract_byte clus (extract_codes wc (i + 4)) * extract_byte rs2 i ≤ 32768 := by
  have p1 := product_bounds (extract_byte_bounds clus (extract_codes wc i)) (extract_byte_bounds rs1 i)
  have p2 := product_bounds (extract_byte_bounds clus (extract_codes wc (i + 4)))
    (extract_byte_bounds rs2 i)
  omega

theorem multiply_add_eq_MAC_spec (rs1 rs2 clus wc : Nat) :
    multiply_add rs1 rs2 clus wc = MAC_spec rs1 rs2 clus wc := by
  have t0 := multiply_add_term_bounds rs1 rs2 clus wc 0
  have t1 := multiply_add_term_bounds rs1 rs2 clus wc 1
  have t2 := multiply_add_term_bounds rs1 rs2 clus wc 2
  have t3 := multiply_add_term_bounds rs1 rs2 clus wc 3
  rw [multiply_add_unroll]
  rw [multiply_add_body_exact _ _ _ _ 0 0 (by omega) (by omega)]
  rw [multiply_add_body_exact _ _ _ _ _ 1 (by omega) (by omega)]
  rw [multiply_add_body_exact _ _ _ _ _ 2 (by omega) (by omega)]
  rw [multiply_add_body_exact _ _ _ _ _ 3 (by omega) (by omega)]
  simp only [MAC_spec, List.range_succ, List.range_zero, List.nil_append, List.cons_append,
    List.map_cons, List.map_nil, List.sum_cons, List.sum_nil, extract_byte_eq_sbyte,
    extract_codes_eq_code]
  ring


theorem extract_weight_set_eq_weightSet (w k : Nat) :
    extract_weight_set w k = weightSet_spec w k := by
  unfold extract_weight_set weightSet_spec
  rw [Nat.mul_comm, Nat.and_comm 0xFFFF, and_ffff, Nat.mod_mod]

theorem toUInt32_lt (x : Int) : toUInt32 x < 4294967296 := by
  unfold toUInt32; omega

theorem toUInt32_natCast {n : Nat} (h : n < 4294967296) : toUInt32 (n : Int) = n := by
  unfold toUInt32; omega

theorem add_toUInt32 (acc : Nat) (m : Int) :
    (acc + toUInt32 m) % 4294967296 = toUInt32 ((acc : Int) + m) := by
  unfold toUInt32; omega

theorem toUInt32_add_toUInt32 (x y : Int) :
    toUInt32 ((toUInt32 x : Int) + y) = toUInt32 (x + y) := by
  unfold toUInt32; omega

/-- The four accumulate arms of `software_cfu` in one equation. -/
theorem software_cfu_accumulate (s : CfuState) (a b k : Nat) (hk : k < 4) :
    software_cfu s 2 (0b10000 + (k : Int)) a b =
      (toUInt32 ((s.acc : Int) + MAC_spec a b s.clusters (weightSet_spec s.weights k)),
       { s with acc := toUInt32 ((s.acc : Int)
          + MAC_spec a b s.clusters (weightSet_spec s.weights k)) }) := by
  rw [← multiply_add_eq_MAC_spec, ← extract_weight_set_eq_weightSet, ← add_toUInt32]
  interval_cases k <;> simp [software_cfu]


theorem software_cfu_accumulate_0 (s : CfuState) (a b : Nat) :
    software_cfu s 2 0b10000 a b =
      (toUInt32 ((s.acc : Int) + MAC_spec a b s.clusters (weightSet_spec s.weights 0)),
       { s with acc := toUInt32 ((s.acc : Int)
          + MAC_spec a b s.clusters (weightSet_spec s.weights 0)) }) := by
  simpa using software_cfu_accumulate s a b 0 (by decide)

theorem software_cfu_accumulate_1 (s : CfuState) (a b : Nat) :
    software_cfu s 2 0b10001 a b =
      (toUInt32 ((s.acc : Int) + MAC_spec a b s.clusters (weightSet_spec s.weights 1)),
       { s with acc := toUInt32 ((s.acc : Int)
          + MAC_spec a b s.clusters (weightSet_spec s.weights 1)) }) := by
  simpa using software_cfu_accumulate s a b 1 (by decide)

theorem software_cfu_accumulate_2 (s : CfuState) (a b : Nat) :
    software_cfu s 2 0b10010 a b =
      (toUInt32 ((s.acc : Int) + MAC_spec a b s.clusters (weightSet_spec s.weights 2)),
       { s with acc := toUInt32 ((s.acc : Int)
          + MAC_spec a b s.clusters (weightSet_spec s.weights 2)) }) := by
  simpa using software_cfu_accumulate s a b 2 (by decide)

theorem software_cfu_accumulate_3 (s : CfuState) (a b : Nat) :
    software_cfu s 2 0b10011 a b =
      (toUInt32 ((s.acc : Int) + MAC_spec a b s.clusters (weightSet_spec s.weights 3)),
       { s with acc := toUInt32 ((s.acc : Int)
          + MAC_spec a b s.clusters (weightSet_spec s.weights 3)) }) := by
  simpa using software_cfu_accumulate s a b 3 (by decide)

theorem software_cfu_storeCodebook (s : CfuState) (funct7 : Int) (rs1 rs2 : Nat) :
    software_cfu s 0 funct7 rs1 rs2 = (rs2, { s with clusters := rs2 }) := by
  simp [software_cfu]

theorem shiftLeft_32_mod {hi : Nat} (h : hi < 4294967296) :
    (hi <<< 32) % 18446744073709551616 = hi <<< 32 := by
  rw [Nat.shiftLeft_eq]; omega

theorem shiftLeft_32_or {lo : Nat} (hi : Nat) (h : lo < 4294967296) :
    (hi <<< 32) ||| lo = hi * 4294967296 + lo := by
  have e := Nat.mul_add_lt_is_or (i := 32) (b := lo) (by simpa using h) hi
  rw [Nat.shiftLeft_eq, Nat.mul_comm hi, ← e]

theorem software_cfu_storeWeights (s : CfuState) (funct7 : Int) (rs1 rs2 : Nat)
    (h7 : Int.land funct7 0b100 ≠ 0) (h2 : rs2 < 4294967296) :
    software_cfu s 1 funct7 rs1 rs2 =
      (((rs2 <<< 32) ||| rs1) % 4294967296, { s with weights := (rs2 <<< 32) ||| rs1 }) := by
  simp [software_cfu, h7, shiftLeft_32_mod h2]

theorem software_cfu_reset (s : CfuState) (rs1 rs2 : Nat) :
    software_cfu s 2 0b1000 rs1 rs2 = (0, { s with acc := 0 }) := by
  simp [software_cfu]

theorem software_cfu_read (s : CfuState) (rs1 rs2 : Nat) :
    software_cfu s 2 0 rs1 rs2 = (s.acc, s) := by
  simp [software_cfu]

theorem check_cfu_read (s : CfuState) (codebook w0 w1 f0 f1 expected : Nat)
    (h1 : w1 < 4294967296) :
    (check_cfu codebook w0 w1 f0 f1 expected s).1 =
      toUInt32 ((s.acc : Int) + ((List.range 4).map fun k =>
        MAC_spec f0 f1 codebook (weightSet_spec ((w1 <<< 32) ||| w0) k)).sum) := by
  have h7 : Int.land 0b100 0b100 ≠ 0 := by decide
  simp only [check_cfu, cfu_storeCodebook, cfu_storeWeights, cfu_accumulate_0, cfu_accumulate_1,
    cfu_accumulate_2, cfu_accumulate_3, cfu_read, cfu_op, software_cfu_storeCodebook,
    software_cfu_storeWeights _ _ _ _ h7 h1, software_cfu_accumulate_0, software_cfu_accumulate_1,
    software_cfu_accumulate_2, software_cfu_accumulate_3, software_cfu_read,
    toUInt32_add_toUInt32]
  simp only [List.range_succ, List.range_zero, List.nil_append, List.cons_append,
    List.map_cons, List.map_nil, List.sum_cons, List.sum_nil]
  congr 1
  ring

theorem do_test_cfu_reads (s : CfuState) :
    (do_test_cfu s).1 = [(83, true), (491, true), (286, true)] := by
  have h7 : Int.land 0b100 0b100 ≠ 0 := by decide
  have e : do_test_cfu s = do_test_cfu CfuState.init := by
    simp [do_test_cfu, check_cfu, cfu_reset, cfu_storeCodebook, cfu_storeWeights, cfu_accumulate_0,
      cfu_accumulate_1, cfu_accumulate_2, cfu_accumulate_3, cfu_read, cfu_op,
      software_cfu_storeCodebook, software_cfu_reset, software_cfu_read,
      software_cfu_storeWeights _ _ _ _ h7, software_cfu_accumulate_0, software_cfu_accumulate_1,
      software_cfu_accumulate_2, software_cfu_accumulate_3, CfuState.init]
  rw [e]
  decide


theorem software_cfu_clusters_of_ne (s : CfuState) (funct3 funct7 : Int) (rs1 rs2 : Nat)
    (h : funct3 ≠ 0) : (software_cfu s funct3 funct7 rs1 rs2).2.clusters = s.clusters := by
  unfold software_cfu
  split_ifs <;> simp_all

theorem runCalls_clusters (cs : List Call) :
    ∀ s : CfuState, (∀ c ∈ cs, c.funct3 ≠ 0) → (runCalls s cs).2.clusters = s.clusters := by
  induction cs with
  | nil => intro s _; rfl
  | cons c cs ih =>
    intro s h
    have hc := h c (List.mem_cons_self c cs)
    have hcs : ∀ d ∈ cs, d.funct3 ≠ 0 := fun d hd => h d (List.mem_cons_of_mem c hd)
    simp only [runCalls]
    rw [ih _ hcs, software_cfu_clusters_of_ne _ _ _ _ _ hc]

theorem software_cfu_accCall (s : CfuState) (c : AccCall) (hk : c.k < 4) :
    software_cfu s c.toCall.funct3 c.toCall.funct7 c.toCall.rs1 c.toCall.rs2 =
      (toUInt32 ((s.acc : Int) + c.contribution s.clusters s.weights),
       { s with acc := toUInt32 ((s.acc : Int) + c.contribution s.clusters s.weights) }) := by
  simpa [AccCall.toCall, AccCall.contribution] using software_cfu_accumulate s c.a c.b c.k hk

theorem runCalls_accumulate_state (cs : List AccCall) :
    ∀ s : CfuState, s.acc < 4294967296 → (∀ c ∈ cs, c.k < 4) →
      (runCalls s (cs.map AccCall.toCall)).2 =
        { s with acc := toUInt32 ((s.acc : Int)
            + (cs.map (AccCall.contribution s.clusters s.weights)).sum) } := by
  induction cs with
  | nil =>
    intro s hs _
    simp [runCalls, toUInt32_natCast hs]
  | cons c cs ih =>
    intro s _ h
    have hc := h c (List.mem_cons_self c cs)
    have hcs : ∀ d ∈ cs, d.k < 4 := fun d hd => h d (List.mem_cons_of_mem c hd)
    simp only [List.map_cons, runCalls, software_cfu_accCall s c hc, List.sum_cons]
    rw [ih _ (toUInt32_lt _) hcs]
    simp only [toUInt32_add_toUInt32, add_assoc]

theorem runCalls_accumulate_returns (cs : List AccCall) :
    ∀ (s : CfuState) (j : Nat), (∀ c ∈ cs, c.k < 4) → j < cs.length →
      (runCalls s (cs.map AccCall.toCall)).1[j]? =
        some (toUInt32 ((s.acc : Int)
          + ((cs.take (j + 1)).map (AccCall.contribution s.clusters s.weights)).sum)) := by
  induction cs with
  | nil => intro s j _ hj; simp at hj
  | cons c cs ih =>
    intro s j h hj
    have hc := h c (List.mem_cons_self c cs)
    have hcs : ∀ d ∈ cs, d.k < 4 := fun d hd => h d (List.mem_cons_of_mem c hd)
    simp only [List.map_cons, runCalls, software_cfu_accCall s c hc]
    cases j with
    | zero => simp
    | succ j =>
      have hj2 : j < cs.length := by simpa using hj
      simp only [List.getElem?_cons_succ, List.take_succ_cons, List.map_cons, List.sum_cons]
      rw [ih _ j hcs hj2]
      simp only [toUInt32_add_toUInt32, add_assoc]

/-! ## Claims -/

/-- Claim C1: for all operands `rs1`, `rs2`, every codebook `clus` and every weight-code
set `weights_codes`, the interleaved four-iteration loop of `multiply_add` returns
the exact integer sum over `i` in `0..3` of
`sbyte(clus, code(weights_codes, i)) * sbyte(rs1, i)
 + sbyte(clus, code(weights_codes, i+4)) * sbyte(rs2, i)`. -/
theorem C1_multiply_add_exact_sum (rs1 rs2 clus weights_codes : Nat) :
    multiply_add rs1 rs2 clus weights_codes =
      ∑ i ∈ Finset.range 4,
        (sbyte_spec clus (code_spec weights_codes i) * sbyte_spec rs1 i
          + sbyte_spec clus (code_spec weights_codes (i + 4)) * sbyte_spec rs2 i) := by
  rw [multiply_add_eq_MAC_spec]
  simp only [MAC_spec, List.range_succ, List.range_zero, List.nil_append, List.cons_append,
    List.map_cons, List.map_nil, List.sum_cons, List.sum_nil, Finset.sum_range_succ,
    Finset.sum_range_zero]
  ring

/-- Claim C2: for every state, operands and `k < 4`, selector 2 with modifier
`0b10000 + k` sets the accumulator to
`(acc + MAC(A, B, Codebook, (WeightCodeWord >> 16k) & 0xFFFF)) mod 2^32`, returns
exactly that new accumulator and leaves the other two registers alone; there is
no saturation: from `0x7FFFFFFF` a MAC of `1` gives `0x80000000`, and from `0` a
MAC of `-78` gives `0xFFFFFFB2`. -/
theorem C2_accumulate_wraparound (s : CfuState) (a b k : Nat) (hk : k < 4) :
    software_cfu s 2 (0b10000 + (k : Int)) a b =
      ((((s.acc : Int) + MAC_spec a b s.clusters ((s.weights >>> (16 * k)) &&& 0xFFFF))
          % 4294967296).toNat,
        { clusters := s.clusters, weights := s.weights,
          acc := (((s.acc : Int) + MAC_spec a b s.clusters ((s.weights >>> (16 * k)) &&& 0xFFFF))
            % 4294967296).toNat }) ∧
    (s.acc = 0x7FFFFFFF →
      MAC_spec a b s.clusters ((s.weights >>> (16 * k)) &&& 0xFFFF) = 1 →
      (software_cfu s 2 (0b10000 + (k : Int)) a b).1 = 0x80000000) ∧
    (s.acc = 0 →
      MAC_spec a b s.clusters ((s.weights >>> (16 * k)) &&& 0xFFFF) = -78 →
      (software_cfu s 2 (0b10000 + (k : Int)) a b).1 = 0xFFFFFFB2) := by
  have e := software_cfu_accumulate s a b k hk
  simp only [weightSet_spec, toUInt32] at e
  refine ⟨e, ?_, ?_⟩
  · intro h1 h2
    rw [e, h1, h2]
    rfl
  · intro h1 h2
    rw [e, h1, h2]
    rfl

/-- Witness of C2: both overflow examples on concrete states, set index 0. -/
theorem C2_accumulate_wraparound_witness :
    (0 < 4 ∧ (software_cfu ⟨1, 0, 0x7FFFFFFF⟩ 2 (0b10000 + ((0 : Nat) : Int)) 1 0).1 = 0x80000000) ∧
    (software_cfu ⟨0x04030201, 0x12ED547A01FFFA32, 0⟩ 2 (0b10000 + ((0 : Nat) : Int))
      0xFFFFFFFF 0xFBF6FFFE).1 = 0xFFFFFFB2 :=
  ⟨⟨by decide,
    (C2_accumulate_wraparound ⟨1, 0, 0x7FFFFFFF⟩ 1 0 0 (by decide)).2.1 rfl (by decide)⟩,
   (C2_accumulate_wraparound ⟨0x04030201, 0x12ED547A01FFFA32, 0⟩ 0xFFFFFFFF 0xFBF6FFFE 0
    (by decide)).2.2 rfl (by decide)⟩

/-- Claim C3: one `check_cfu` round (store codebook, store weights `(w0, w1)`, accumulate
with sets 0, 1, 2, 3 on `(f0, f1)`, read) makes the read return
`(acc before + sum over k in 0..3 of MAC(f0, f1, codebook, slice k of (w1 << 32 | w0)))
mod 2^32`; and `do_test_cfu`, from any starting state, reads 83, 491 and 286 in
that order, each equal to the expected value of its round. -/
theorem C3_check_cfu_round (s : CfuState) (codebook w0 w1 f0 f1 expected : Nat)
    (h1 : w1 < 4294967296) :
    (check_cfu codebook w0 w1 f0 f1 expected s).1 =
      (((s.acc : Int) + ∑ k ∈ Finset.range 4,
          MAC_spec f0 f1 codebook ((((w1 <<< 32) ||| w0) >>> (16 * k)) &&& 0xFFFF))
        % 4294967296).toNat ∧
    (∀ s0 : CfuState, (do_test_cfu s0).1 = [(83, true), (491, true), (286, true)]) := by
  refine ⟨?_, do_test_cfu_reads⟩
  have e := check_cfu_read s codebook w0 w1 f0 f1 expected h1
  simp only [weightSet_spec, toUInt32, List.range_succ, List.range_zero, List.nil_append,
    List.cons_append, List.map_cons, List.map_nil, List.sum_cons, List.sum_nil] at e
  rw [e]
  simp only [Finset.sum_range_succ, Finset.sum_range_zero]
  congr 3
  ring

/-- Witness of C3: the first round of the harness, from the initial globals. -/
theorem C3_check_cfu_round_witness :
    0x12ED547A < 4294967296 ∧
    (check_cfu 0x04030201 0x01FFFA32 0x12ED547A 0x01010101 0x01010101 83 CfuState.init).1 =
      (((CfuState.init.acc : Int) + ∑ k ∈ Finset.range 4,
          MAC_spec 0x01010101 0x01010101 0x04030201
            ((((0x12ED547A <<< 32) ||| 0x01FFFA32) >>> (16 * k)) &&& 0xFFFF))
        % 4294967296).toNat :=
  ⟨by decide,
   (C3_check_cfu_round CfuState.init 0x04030201 0x01FFFA32 0x12ED547A 0x01010101 0x01010101 83
    (by decide)).1⟩

/-- Claim C4 as stated fails: from the initial globals, with the codebook and weights of
the scenario stored and the accumulator reset, one accumulate with weight-set 0
leaves an accumulator different from 83, 491 and 286 respectively. -/
theorem C4_known_vectors_counterexample :
    (runCalls CfuState.init [⟨0, 0, 0, 0x04030201⟩, ⟨1, 0b100, 0x01FFFA32, 0x12ED547A⟩,
        ⟨2, 0b1000, 0, 0⟩, ⟨2, 0b10000, 0x01010101, 0x01010101⟩]).2.acc ≠ 83 ∧
    (runCalls CfuState.init [⟨0, 0, 0, 0x04030201⟩, ⟨1, 0b100, 0x01FFFA32, 0x12ED547A⟩,
        ⟨2, 0b1000, 0, 0⟩, ⟨2, 0b10000, 0x05060708, 0x01020304⟩]).2.acc ≠ 491 ∧
    (runCalls CfuState.init [⟨0, 0, 0, 0x04030201⟩, ⟨1, 0b100, 0x01FFFA32, 0x12ED547A⟩,
        ⟨2, 0b1000, 0, 0⟩, ⟨2, 0b10000, 0xFFFFFFFF, 0xFBF6FFFE⟩]).2.acc ≠ 286 := by
  decide

/-- Claim C4 amended: from any state, storing codebook `0x04030201` and weights
`(0x01FFFA32, 0x12ED547A)`, resetting and accumulating once with weight-set 0
leaves the accumulator at 23 for operands `(0x01010101, 0x01010101)`, at 93 for
`(0x05060708, 0x01020304)` and at `0xFFFFFFB2` (the 32-bit pattern of -78) for
`(0xFFFFFFFF, 0xFBF6FFFE)`. -/
theorem C4_known_vectors_set0 (s : CfuState) :
    (runCalls s [⟨0, 0, 0, 0x04030201⟩, ⟨1, 0b100, 0x01FFFA32, 0x12ED547A⟩,
        ⟨2, 0b1000, 0, 0⟩, ⟨2, 0b10000, 0x01010101, 0x01010101⟩]).2.acc = 23 ∧
    (runCalls s [⟨0, 0, 0, 0x04030201⟩, ⟨1, 0b100, 0x01FFFA32, 0x12ED547A⟩,
        ⟨2, 0b1000, 0, 0⟩, ⟨2, 0b10000, 0x05060708, 0x01020304⟩]).2.acc = 93 ∧
    (runCalls s [⟨0, 0, 0, 0x04030201⟩, ⟨1, 0b100, 0x01FFFA32, 0x12ED547A⟩,
        ⟨2, 0b1000, 0, 0⟩, ⟨2, 0b10000, 0xFFFFFFFF, 0xFBF6FFFE⟩]).2.acc = 0xFFFFFFB2 := by
  have h7 : Int.land 0b100 0b100 ≠ 0 := by decide
  have e : ∀ a b : Nat,
      (runCalls s [⟨0, 0, 0, 0x04030201⟩, ⟨1, 0b100, 0x01FFFA32, 0x12ED547A⟩,
        ⟨2, 0b1000, 0, 0⟩, ⟨2, 0b10000, a, b⟩]).2.acc =
      toUInt32 (MAC_spec a b 0x04030201 (weightSet_spec ((0x12ED547A <<< 32) ||| 0x01FFFA32) 0)) := by
    intro a b
    simp [runCalls, software_cfu_storeCodebook, software_cfu_storeWeights _ _ _ _ h7,
      software_cfu_reset, software_cfu_accumulate_0]
  rw [e, e, e]
  decide

/-- Claim C5 as stated fails: with `operandA = 0`, `operandB = 1` and modifier `0b100`
the register becomes `1 << 32`, and the returned word is `0`, not
`(operandB << 32) | operandA`. -/
theorem C5_store_weights_return_counterexample :
    Int.land 0b100 0b100 ≠ 0 ∧
    (software_cfu CfuState.init 1 0b100 0 1).2.weights = (1 <<< 32) ||| 0 ∧
    (software_cfu CfuState.init 1 0b100 0 1).1 = 0 ∧
    (software_cfu CfuState.init 1 0b100 0 1).1 ≠ (1 <<< 32) ||| 0 := by
  decide

/-- Claim C5 amended: for every state, 32-bit operands and every modifier with bit 2
set, selector 1 returns the low 32 bits of the new weight-code word
`(operandB << 32) | operandA`, which is `operandA`; the returned word is the whole
weight-code word exactly when `operandB = 0`. -/
theorem C5_store_weights_return_low_word (s : CfuState) (funct7 : Int) (rs1 rs2 : Nat)
    (h7 : Int.land funct7 0b100 ≠ 0) (h1 : rs1 < 4294967296) (h2 : rs2 < 4294967296) :
    (software_cfu s 1 funct7 rs1 rs2).1 = ((rs2 <<< 32) ||| rs1) % 4294967296 ∧
    (software_cfu s 1 funct7 rs1 rs2).1 = (software_cfu s 1 funct7 rs1 rs2).2.weights % 4294967296 ∧
    (software_cfu s 1 funct7 rs1 rs2).1 = rs1 ∧
    ((software_cfu s 1 funct7 rs1 rs2).1 = (rs2 <<< 32) ||| rs1 ↔ rs2 = 0) := by
  rw [software_cfu_storeWeights s funct7 rs1 rs2 h7 h2, shiftLeft_32_or rs2 h1]
  refine ⟨rfl, rfl, ?_, ?_⟩
  · show (rs2 * 4294967296 + rs1) % 4294967296 = rs1
    omega
  · show (rs2 * 4294967296 + rs1) % 4294967296 = rs2 * 4294967296 + rs1 ↔ rs2 = 0
    omega

/-- Witness of C5 (amended): the weights of the harness, modifier `0b100`. -/
theorem C5_store_weights_return_low_word_witness :
    (Int.land 0b100 0b100 ≠ 0 ∧ 0x01FFFA32 < 4294967296 ∧ 0x12ED547A < 4294967296) ∧
    (software_cfu CfuState.init 1 0b100 0x01FFFA32 0x12ED547A).1 = 0x01FFFA32 :=
  ⟨⟨by decide, by decide, by decide⟩,
   (C5_store_weights_return_low_word CfuState.init 0b100 0x01FFFA32 0x12ED547A
    (by decide) (by decide) (by decide)).2.2.1⟩

/-- Claim C6: for every state, 32-bit operands and every modifier with bit 2 set,
selector 1 replaces the weight-code word by exactly `(operandB << 32) | operandA`
(`operandA` in bits 0..31, `operandB` in bits 32..63) and touches nothing else;
the result does not depend on the previous weight-code word, so after two such
stores the register holds the value of the second store alone. -/
theorem C6_store_weights_overwrites (s : CfuState) (funct7 : Int) (rs1 rs2 : Nat)
    (h7 : Int.land funct7 0b100 ≠ 0) (h1 : rs1 < 4294967296) (h2 : rs2 < 4294967296) :
    (software_cfu s 1 funct7 rs1 rs2).2 =
      { clusters := s.clusters, weights := (rs2 <<< 32) ||| rs1, acc := s.acc } ∧
    (software_cfu s 1 funct7 rs1 rs2).2.weights % 4294967296 = rs1 ∧
    (software_cfu s 1 funct7 rs1 rs2).2.weights / 4294967296 = rs2 ∧
    (∀ old : Nat, (software_cfu { s with weights := old } 1 funct7 rs1 rs2).2 =
      (software_cfu s 1 funct7 rs1 rs2).2) ∧
    (∀ (g7 : Int) (a b : Nat), Int.land g7 0b100 ≠ 0 → a < 4294967296 → b < 4294967296 →
      (software_cfu (software_cfu s 1 g7 a b).2 1 funct7 rs1 rs2).2.weights = (rs2 <<< 32) ||| rs1 ∧
      (software_cfu (software_cfu s 1 g7 a b).2 1 funct7 rs1 rs2).2 =
        (software_cfu s 1 funct7 rs1 rs2).2) := by
  refine ⟨?_, ?_, ?_, ?_, ?_⟩
  · rw [software_cfu_storeWeights s funct7 rs1 rs2 h7 h2]
  · rw [software_cfu_storeWeights s funct7 rs1 rs2 h7 h2, shiftLeft_32_or rs2 h1]
    show (rs2 * 4294967296 + rs1) % 4294967296 = rs1
    omega
  · rw [software_cfu_storeWeights s funct7 rs1 rs2 h7 h2, shiftLeft_32_or rs2 h1]
    show (rs2 * 4294967296 + rs1) / 4294967296 = rs2
    omega
  · intro old
    rw [software_cfu_storeWeights _ funct7 rs1 rs2 h7 h2,
      software_cfu_storeWeights _ funct7 rs1 rs2 h7 h2]
  · intro g7 a b hg _ hb
    rw [software_cfu_storeWeights _ funct7 rs1 rs2 h7 h2,
      software_cfu_storeWeights _ funct7 rs1 rs2 h7 h2,
      software_cfu_storeWeights _ g7 a b hg hb]
    exact ⟨rfl, rfl⟩

/-- Witness of C6: the weights of the harness stored over a non-zero register. -/
theorem C6_store_weights_overwrites_witness :
    (Int.land 0b100 0b100 ≠ 0 ∧ 0x01FFFA32 < 4294967296 ∧ 0x12ED547A < 4294967296) ∧
    (software_cfu ⟨7, 0xFFFFFFFFFFFFFFFF, 9⟩ 1 0b100 0x01FFFA32 0x12ED547A).2 =
      { clusters := 7, weights := (0x12ED547A <<< 32) ||| 0x01FFFA32, acc := 9 } :=
  ⟨⟨by decide, by decide, by decide⟩,
   (C6_store_weights_overwrites ⟨7, 0xFFFFFFFFFFFFFFFF, 9⟩ 0b100 0x01FFFA32 0x12ED547A
    (by decide) (by decide) (by decide)).1⟩

/-- Claim C7: for 32-bit `lo`, `hi` and `k < 4`, after `storeWeights(lo, hi)` (selector 1,
modifier `0b100`) the weight-code set that accumulate `k` extracts is
`((hi << 32 | lo) >> 16k) & 0xFFFF`, that is `lo & 0xFFFF`, `lo >> 16`,
`hi & 0xFFFF`, `hi >> 16` for `k = 0, 1, 2, 3`; accumulate `k` then adds exactly
`MAC(operandA, operandB, Codebook, that slice)` modulo `2^32`. -/
theorem C7_weight_packing (s : CfuState) (lo hi k a b : Nat)
    (hlo : lo < 4294967296) (hhi : hi < 4294967296) (hk : k < 4) :
    extract_weight_set (software_cfu s 1 0b100 lo hi).2.weights k =
      (((hi <<< 32) ||| lo) >>> (16 * k)) &&& 0xFFFF ∧
    (((hi <<< 32) ||| lo) >>> (16 * k)) &&& 0xFFFF =
      [lo &&& 0xFFFF, lo >>> 16, hi &&& 0xFFFF, hi >>> 16].getD k 0 ∧
    software_cfu (software_cfu s 1 0b100 lo hi).2 2 (0b10000 + (k : Int)) a b =
      ((((s.acc : Int) + MAC_spec a b s.clusters ((((hi <<< 32) ||| lo) >>> (16 * k)) &&& 0xFFFF))
          % 4294967296).toNat,
        { clusters := s.clusters, weights := (hi <<< 32) ||| lo,
          acc := (((s.acc : Int)
            + MAC_spec a b s.clusters ((((hi <<< 32) ||| lo) >>> (16 * k)) &&& 0xFFFF))
              % 4294967296).toNat }) := by
  have h7 : Int.land 0b100 0b100 ≠ 0 := by decide
  refine ⟨?_, ?_, ?_⟩
  · rw [software_cfu_storeWeights s 0b100 lo hi h7 hhi, extract_weight_set_eq_weightSet]
    rfl
  · rw [shiftLeft_32_or hi hlo]
    simp only [and_ffff, Nat.shiftRight_eq_div_pow]
    interval_cases k <;> simp <;> omega
  · rw [software_cfu_storeWeights s 0b100 lo hi h7 hhi, software_cfu_accumulate _ a b k hk]
    rfl

/-- Witness of C7: the weights of the harness, set index 2. -/
theorem C7_weight_packing_witness :
    (0x01FFFA32 < 4294967296 ∧ 0x12ED547A < 4294967296 ∧ 2 < 4) ∧
    extract_weight_set (software_cfu CfuState.init 1 0b100 0x01FFFA32 0x12ED547A).2.weights 2 =
      (((0x12ED547A <<< 32) ||| 0x01FFFA32) >>> (16 * 2)) &&& 0xFFFF ∧
    (((0x12ED547A <<< 32) ||| 0x01FFFA32) >>> (16 * 2)) &&& 0xFFFF = 0x547A :=
  ⟨⟨by decide, by decide, by decide⟩,
   (C7_weight_packing CfuState.init 0x01FFFA32 0x12ED547A 2 0 0
    (by decide) (by decide) (by decide)).1, by decide⟩

/-- Claim C8: for every state, modifier, `operandA` and `X`, selector 0 with
`operandB = X` returns `X` and sets the codebook to exactly `X`, whatever
`operandA`, the modifier and the previous codebook were; after any further calls
none of which has selector 0 the codebook is still `X`, centroid `i` is the
signed byte `i` of `X`, and every accumulate adds the MAC computed with codebook
`X`. -/
theorem C8_store_codebook (s : CfuState) (funct7 : Int) (rs1 X : Nat) :
    software_cfu s 0 funct7 rs1 X =
      (X, { clusters := X, weights := s.weights, acc := s.acc }) ∧
    (∀ (old : Nat) (g7 : Int) (a : Nat),
      (software_cfu { s with clusters := old } 0 g7 a X).2 = (software_cfu s 0 funct7 rs1 X).2) ∧
    (∀ cs : List Call, (∀ c ∈ cs, c.funct3 ≠ 0) →
      (runCalls (software_cfu s 0 funct7 rs1 X).2 cs).2.clusters = X ∧
      (∀ i : Nat, i < 4 →
        extract_byte (runCalls (software_cfu s 0 funct7 rs1 X).2 cs).2.clusters i
          = sbyte_spec X i) ∧
      (∀ k a b : Nat, k < 4 →
        (software_cfu (runCalls (software_cfu s 0 funct7 rs1 X).2 cs).2 2
            (0b10000 + (k : Int)) a b).1 =
          (((((runCalls (software_cfu s 0 funct7 rs1 X).2 cs).2.acc : Nat) : Int)
              + MAC_spec a b X
                (((runCalls (software_cfu s 0 funct7 rs1 X).2 cs).2.weights >>> (16 * k))
                  &&& 0xFFFF)) % 4294967296).toNat)) := by
  refine ⟨software_cfu_storeCodebook s funct7 rs1 X, ?_, ?_⟩
  · intro old g7 a
    rw [software_cfu_storeCodebook, software_cfu_storeCodebook]
  · intro cs hcs
    have hX : (runCalls (software_cfu s 0 funct7 rs1 X).2 cs).2.clusters = X := by
      rw [runCalls_clusters cs _ hcs, software_cfu_storeCodebook]
    refine ⟨hX, ?_, ?_⟩
    · intro i _
      rw [hX, extract_byte_eq_sbyte]
    · intro k a b hk
      rw [software_cfu_accumulate _ a b k hk, hX]
      rfl

/-- Witness of C8: a codebook store, then a weight store and an accumulate, none
with selector 0; the codebook still reads `0x04030201`. -/
theorem C8_store_codebook_witness :
    (∀ c ∈ [(⟨1, 0b100, 0x01FFFA32, 0x12ED547A⟩ : Call), ⟨2, 0b10000, 1, 1⟩], c.funct3 ≠ 0) ∧
    (runCalls (software_cfu CfuState.init 0 0 0 0x04030201).2
      [⟨1, 0b100, 0x01FFFA32, 0x12ED547A⟩, ⟨2, 0b10000, 1, 1⟩]).2.clusters = 0x04030201 :=
  ⟨by decide,
   ((C8_store_codebook CfuState.init 0 0 0x04030201).2.2
      [⟨1, 0b100, 0x01FFFA32, 0x12ED547A⟩, ⟨2, 0b10000, 1, 1⟩] (by decide)).1⟩

/-- Claim C9: for any list of accumulate requests (each with its set index `k < 4` and
operand pair), run from a state with a 32-bit accumulator `a0`, the codebook and
the weight-code word stay fixed, the final accumulator is
`(a0 + sum of the MAC contributions) mod 2^32`, the `j`-th returned word is
`(a0 + sum of the first j+1 contributions) mod 2^32`, every permutation of the
requests ends in the same accumulator, and after a reset the final accumulator is
the sum of the contributions `mod 2^32`. -/
theorem C9_accumulation_additive (s : CfuState) (cs : List AccCall)
    (hacc : s.acc < 4294967296) (hk : ∀ c ∈ cs, c.k < 4) :
    (runCalls s (cs.map AccCall.toCall)).2.clusters = s.clusters ∧
    (runCalls s (cs.map AccCall.toCall)).2.weights = s.weights ∧
    (runCalls s (cs.map AccCall.toCall)).2.acc =
      (((s.acc : Int) + (cs.map (AccCall.contribution s.clusters s.weights)).sum)
        % 4294967296).toNat ∧
    (runCalls s (cs.map AccCall.toCall)).1.length = cs.length ∧
    (∀ j : Nat, j < cs.length →
      (runCalls s (cs.map AccCall.toCall)).1[j]? =
        some ((((s.acc : Int)
          + ((cs.take (j + 1)).map (AccCall.contribution s.clusters s.weights)).sum)
            % 4294967296).toNat)) ∧
    (∀ ds : List AccCall, ds.Perm cs →
      (runCalls s (ds.map AccCall.toCall)).2.acc = (runCalls s (cs.map AccCall.toCall)).2.acc) ∧
    (∀ a b : Nat,
      (runCalls (software_cfu s 2 0b1000 a b).2 (cs.map AccCall.toCall)).2.acc =
        ((cs.map (AccCall.contribution s.clusters s.weights)).sum % 4294967296).toNat) := by
  have hst := runCalls_accumulate_state cs s hacc hk
  refine ⟨?_, ?_, ?_, ?_, ?_, ?_, ?_⟩
  · rw [hst]
  · rw [hst]
  · rw [hst]; rfl
  · have hlen : ∀ (l : List Call) (t : CfuState), (runCalls t l).1.length = l.length := by
      intro l
      induction l with
      | nil => intro t; rfl
      | cons c l ih => intro t; simp [runCalls, ih]
    rw [hlen, List.length_map]
  · intro j hj
    exact runCalls_accumulate_returns cs s j hk hj
  · intro ds hds
    have hkd : ∀ c ∈ ds, c.k < 4 := fun c hc => hk c (hds.mem_iff.mp hc)
    rw [hst, runCalls_accumulate_state ds s hacc hkd]
    have hsum : (ds.map (AccCall.contribution s.clusters s.weights)).sum =
        (cs.map (AccCall.contribution s.clusters s.weights)).sum :=
      (hds.map _).sum_eq
    rw [hsum]
  · intro a b
    rw [software_cfu_reset, runCalls_accumulate_state cs _ (by simp) hk]
    simp [toUInt32]

/-- Witness of C9: three accumulate requests on the harness codebook and weights,
starting from accumulator 5. -/
theorem C9_accumulation_additive_witness :
    ((5 : Nat) < 4294967296 ∧
      ∀ c ∈ [(⟨0, 0x01010101, 0x01010101⟩ : AccCall), ⟨3, 0xFFFFFFFF, 0xFBF6FFFE⟩,
        ⟨1, 0x05060708, 0x01020304⟩], c.k < 4) ∧
    (runCalls ⟨0x04030201, 0x12ED547A01FFFA32, 5⟩
      ([(⟨0, 0x01010101, 0x01010101⟩ : AccCall), ⟨3, 0xFFFFFFFF, 0xFBF6FFFE⟩,
        ⟨1, 0x05060708, 0x01020304⟩].map AccCall.toCall)).2.acc =
      ((((5 : Nat) : Int) + ([(⟨0, 0x01010101, 0x01010101⟩ : AccCall),
        ⟨3, 0xFFFFFFFF, 0xFBF6FFFE⟩, ⟨1, 0x05060708, 0x01020304⟩].map
          (AccCall.contribution 0x04030201 0x12ED547A01FFFA32)).sum) % 4294967296).toNat ∧
    (runCalls ⟨0x04030201, 0x12ED547A01FFFA32, 5⟩
      ([(⟨0, 0x01010101, 0x01010101⟩ : AccCall), ⟨3, 0xFFFFFFFF, 0xFBF6FFFE⟩,
        ⟨1, 0x05060708, 0x01020304⟩].map AccCall.toCall)) =
      ([28, 4294967279, 101], ⟨0x04030201, 0x12ED547A01FFFA32, 101⟩) :=
  ⟨⟨by decide, by decide⟩,
   (C9_accumulation_additive ⟨0x04030201, 0x12ED547A01FFFA32, 5⟩
      [⟨0, 0x01010101, 0x01010101⟩, ⟨3, 0xFFFFFFFF, 0xFBF6FFFE⟩, ⟨1, 0x05060708, 0x01020304⟩]
      (by decide) (by decide)).2.2.1,
   by decide⟩

/-- Claim C10: for every state and operands, selector 2 with modifier `0b1000` sets the
accumulator to 0, returns 0 and leaves the other registers alone; a second reset
returns 0 again and gives the same state as the first; a read (selector 2,
modifier 0) after a reset returns 0. -/
theorem C10_reset_idempotent (s : CfuState) (a b c d e f : Nat) :
    software_cfu s 2 0b1000 a b =
      (0, { clusters := s.clusters, weights := s.weights, acc := 0 }) ∧
    software_cfu (software_cfu s 2 0b1000 a b).2 2 0b1000 c d =
      (0, (software_cfu s 2 0b1000 a b).2) ∧
    (software_cfu (software_cfu (software_cfu s 2 0b1000 a b).2 2 0b1000 c d).2 2 0 e f).1 = 0 ∧
    software_cfu (software_cfu s 2 0b1000 a b).2 2 0 e f =
      (0, (software_cfu s 2 0b1000 a b).2) := by
  simp [software_cfu_reset, software_cfu_read]

/-! ## Lemmas for the fallback arms, the frame and the range conditions -/

theorem software_cfu_sel2_other (s : CfuState) (funct7 : Int) (rs1 rs2 : Nat)
    (h8 : funct7 ≠ 0b1000) (h16 : funct7 ≠ 0b10000) (h17 : funct7 ≠ 0b10001)
    (h18 : funct7 ≠ 0b10010) (h19 : funct7 ≠ 0b10011) :
    software_cfu s 2 funct7 rs1 rs2 = (s.acc, s) := by
  simp [software_cfu, h8, h16, h17, h18, h19]

theorem software_cfu_sel1_clear (s : CfuState) (funct7 : Int) (rs1 rs2 : Nat)
    (h7 : Int.land funct7 0b100 = 0) : software_cfu s 1 funct7 rs1 rs2 = (0, s) := by
  simp [software_cfu, h7]

theorem software_cfu_sel_other (s : CfuState) (funct3 funct7 : Int) (rs1 rs2 : Nat)
    (h0 : funct3 ≠ 0) (h1 : funct3 ≠ 1) (h2 : funct3 ≠ 2) :
    software_cfu s funct3 funct7 rs1 rs2 = (0, s) := by
  simp [software_cfu, h0, h1, h2]

theorem extract_codes_lt (w n : Nat) : extract_codes w n < 4 := by
  rw [extract_codes_eq_code, code_spec, and_3]
  omega

theorem code_spec_lt (w n : Nat) : code_spec w n < 4 := by
  rw [code_spec, and_3]
  omega

theorem extract_byte_checked_of_lt (w : Nat) {n : Nat} (h : n < 4) :
    extract_byte_checked w n = some (extract_byte w n) := by
  unfold extract_byte_checked
  rw [if_pos (by omega)]

theorem multiply_add_body_checked_some (rs1 rs2 clus wc : Nat) (sum : Int) {i : Nat}
    (hi : i < 4) :
    multiply_add_body_checked rs1 rs2 clus wc (some sum) i =
      some (multiply_add_body rs1 rs2 clus wc sum i) := by
  have c1 : extract_codes_checked wc i = some (extract_codes wc i) := by
    unfold extract_codes_checked; rw [if_pos (by omega)]
  have c2 : extract_codes_checked wc (i + 4) = some (extract_codes wc (i + 4)) := by
    unfold extract_codes_checked; rw [if_pos (by omega)]
  simp [multiply_add_body_checked, multiply_add_body, c1, c2,
    extract_byte_checked_of_lt clus (extract_codes_lt wc i),
    extract_byte_checked_of_lt clus (extract_codes_lt wc (i + 4)),
    extract_byte_checked_of_lt rs1 hi, extract_byte_checked_of_lt rs2 hi]

theorem multiply_add_checked_some (rs1 rs2 clus wc : Nat) :
    multiply_add_checked rs1 rs2 clus wc = some (multiply_add rs1 rs2 clus wc) := by
  simp [multiply_add_checked, multiply_add, List.range_succ, multiply_add_body_checked_some]

theorem accumulate_checked_some (s : CfuState) (rs1 rs2 : Nat) {num : Nat} (h : num < 4) :
    accumulate_checked s rs1 rs2 num =
      some ((s.acc + toUInt32 (multiply_add rs1 rs2 s.clusters
          (extract_weight_set s.weights num))) % 4294967296,
        { s with acc := (s.acc + toUInt32 (multiply_add rs1 rs2 s.clusters
          (extract_weight_set s.weights num))) % 4294967296 }) := by
  have c : extract_weight_set_checked s.weights num = some (extract_weight_set s.weights num) := by
    unfold extract_weight_set_checked; rw [if_pos (by omega)]
  simp [accumulate_checked, c, multiply_add_checked_some]

theorem software_cfu_checked_some (s : CfuState) (funct3 funct7 : Int) (rs1 rs2 : Nat) :
    software_cfu_checked s funct3 funct7 rs1 rs2 = some (software_cfu s funct3 funct7 rs1 rs2) := by
  unfold software_cfu_checked software_cfu
  split_ifs <;> simp [accumulate_checked_some]

theorem software_cfu_sel1_set (s : CfuState) (funct7 : Int) (rs1 rs2 : Nat)
    (h7 : Int.land funct7 0b100 ≠ 0) :
    software_cfu s 1 funct7 rs1 rs2 =
      ((((rs2 <<< 32) % 18446744073709551616) ||| rs1) % 4294967296,
        { s with weights := ((rs2 <<< 32) % 18446744073709551616) ||| rs1 }) := by
  simp [software_cfu, h7]

theorem software_cfu_sel2_frame (s : CfuState) (funct7 : Int) (rs1 rs2 : Nat) :
    (software_cfu s 2 funct7 rs1 rs2).2.clusters = s.clusters ∧
    (software_cfu s 2 funct7 rs1 rs2).2.weights = s.weights := by
  by_cases h8 : funct7 = 0b1000
  · rw [h8, software_cfu_reset]; exact ⟨rfl, rfl⟩
  by_cases h16 : funct7 = 0b10000
  · rw [h16, software_cfu_accumulate_0]; exact ⟨rfl, rfl⟩
  by_cases h17 : funct7 = 0b10001
  · rw [h17, software_cfu_accumulate_1]; exact ⟨rfl, rfl⟩
  by_cases h18 : funct7 = 0b10010
  · rw [h18, software_cfu_accumulate_2]; exact ⟨rfl, rfl⟩
  by_cases h19 : funct7 = 0b10011
  · rw [h19, software_cfu_accumulate_3]; exact ⟨rfl, rfl⟩
  rw [software_cfu_sel2_other s funct7 rs1 rs2 h8 h16 h17 h18 h19]; exact ⟨rfl, rfl⟩

theorem software_cfu_sel1_frame (s : CfuState) (funct7 : Int) (rs1 rs2 : Nat) :
    (software_cfu s 1 funct7 rs1 rs2).2.clusters = s.clusters ∧
    (software_cfu s 1 funct7 rs1 rs2).2.acc = s.acc := by
  by_cases h7 : Int.land funct7 0b100 = 0
  · rw [software_cfu_sel1_clear s funct7 rs1 rs2 h7]; exact ⟨rfl, rfl⟩
  · rw [software_cfu_sel1_set s funct7 rs1 rs2 h7]; exact ⟨rfl, rfl⟩

theorem software_cfu_acc_frame (s : CfuState) (funct3 funct7 : Int) (rs1 rs2 : Nat)
    (h : (software_cfu s funct3 funct7 rs1 rs2).2.acc ≠ s.acc) :
    funct3 = 2 ∧ (funct7 = 0b1000 ∨ funct7 = 0b10000 ∨ funct7 = 0b10001 ∨
      funct7 = 0b10010 ∨ funct7 = 0b10011) := by
  by_cases h0 : funct3 = 0
  · rw [h0, software_cfu_storeCodebook] at h; exact absurd rfl h
  by_cases h1 : funct3 = 1
  · rw [h1] at h; exact absurd (software_cfu_sel1_frame s funct7 rs1 rs2).2 h
  by_cases h2 : funct3 = 2
  · refine ⟨h2, ?_⟩
    by_contra hn
    simp only [not_or] at hn
    obtain ⟨h8, h16, h17, h18, h19⟩ := hn
    rw [h2, software_cfu_sel2_other s funct7 rs1 rs2 h8 h16 h17 h18 h19] at h
    exact h rfl
  · rw [software_cfu_sel_other s funct3 funct7 rs1 rs2 h0 h1 h2] at h; exact absurd rfl h

theorem software_cfu_weights_frame (s : CfuState) (funct3 funct7 : Int) (rs1 rs2 : Nat)
    (h : (software_cfu s funct3 funct7 rs1 rs2).2.weights ≠ s.weights) :
    funct3 = 1 ∧ Int.land funct7 0b100 ≠ 0 := by
  by_cases h0 : funct3 = 0
  · rw [h0, software_cfu_storeCodebook] at h; exact absurd rfl h
  by_cases h1 : funct3 = 1
  · refine ⟨h1, ?_⟩
    intro h7
    rw [h1, software_cfu_sel1_clear s funct7 rs1 rs2 h7] at h
    exact h rfl
  by_cases h2 : funct3 = 2
  · rw [h2] at h; exact absurd (software_cfu_sel2_frame s funct7 rs1 rs2).2 h
  · rw [software_cfu_sel_other s funct3 funct7 rs1 rs2 h0 h1 h2] at h; exact absurd rfl h

theorem multiply_add_running_bounds (rs1 rs2 clus wc : Nat) :
    ∀ j : Nat, j ≤ 4 →
      -32512 * (j : Int) ≤ (List.range j).foldl (multiply_add_body rs1 rs2 clus wc) 0 ∧
      (List.range j).foldl (multiply_add_body rs1 rs2 clus wc) 0 ≤ 32768 * (j : Int) := by
  intro j
  induction j with
  | zero => intro _; simp
  | succ j ih =>
    intro hj
    have h := ih (by omega)
    have t := multiply_add_term_bounds rs1 rs2 clus wc j
    rw [List.range_succ, List.foldl_append, List.foldl_cons, List.foldl_nil,
      multiply_add_body_exact _ _ _ _ _ j (by omega) (by omega)]
    push_cast
    omega

theorem sbyte_spec_zero (n : Nat) : sbyte_spec 0 n = 0 := by
  simp [sbyte_spec]

theorem MAC_spec_const (rs1 rs2 clus wc : Nat) (c : Int)
    (hc : ∀ i : Nat, i < 4 → sbyte_spec clus i = c) :
    MAC_spec rs1 rs2 clus wc =
      c * ((sbyte_spec rs1 0 + sbyte_spec rs1 1 + sbyte_spec rs1 2 + sbyte_spec rs1 3)
        + (sbyte_spec rs2 0 + sbyte_spec rs2 1 + sbyte_spec rs2 2 + sbyte_spec rs2 3)) := by
  simp only [MAC_spec, List.range_succ, List.range_zero, List.nil_append, List.cons_append,
    List.map_cons, List.map_nil, List.sum_cons, List.sum_nil, hc _ (code_spec_lt wc _)]
  ring

/-! ## Claims on the fallbacks, the frame, the helpers and the bounds -/

/-- Claim C11: for every state, operands and every modifier outside
`0b1000`, `0b10000`, `0b10001`, `0b10010`, `0b10011` (modifier 0, the read request,
included), selector 2 returns the current accumulator and leaves codebook,
weight-code word and accumulator unchanged; hence any list of such calls returns
the same accumulator each time and leaves the state as it was. -/
theorem C11_read_is_pure (s : CfuState) (funct7 : Int) (rs1 rs2 : Nat)
    (h8 : funct7 ≠ 0b1000) (h16 : funct7 ≠ 0b10000) (h17 : funct7 ≠ 0b10001)
    (h18 : funct7 ≠ 0b10010) (h19 : funct7 ≠ 0b10011) :
    software_cfu s 2 funct7 rs1 rs2 = (s.acc, s) ∧
    software_cfu s 2 0 rs1 rs2 = (s.acc, s) ∧
    cfu_read s = (s.acc, s) ∧
    (∀ cs : List Call,
      (∀ c ∈ cs, c.funct3 = 2 ∧ c.funct7 ≠ 0b1000 ∧ c.funct7 ≠ 0b10000 ∧ c.funct7 ≠ 0b10001 ∧
        c.funct7 ≠ 0b10010 ∧ c.funct7 ≠ 0b10011) →
      runCalls s cs = (List.replicate cs.length s.acc, s)) ∧
    (∀ n : Nat, runCalls s (List.replicate n ⟨2, funct7, rs1, rs2⟩) = (List.replicate n s.acc, s)) := by
  have hlist : ∀ cs : List Call,
      (∀ c ∈ cs, c.funct3 = 2 ∧ c.funct7 ≠ 0b1000 ∧ c.funct7 ≠ 0b10000 ∧ c.funct7 ≠ 0b10001 ∧
        c.funct7 ≠ 0b10010 ∧ c.funct7 ≠ 0b10011) →
      runCalls s cs = (List.replicate cs.length s.acc, s) := by
    intro cs
    induction cs with
    | nil => intro _; rfl
    | cons c cs ih =>
      intro h
      obtain ⟨h3, g8, g16, g17, g18, g19⟩ := h c (List.mem_cons_self c cs)
      have hcs := ih (fun d hd => h d (List.mem_cons_of_mem c hd))
      simp only [runCalls, h3, software_cfu_sel2_other s c.funct7 c.rs1 c.rs2 g8 g16 g17 g18 g19,
        hcs, List.length_cons, List.replicate_succ]
  refine ⟨software_cfu_sel2_other s funct7 rs1 rs2 h8 h16 h17 h18 h19,
    software_cfu_read s rs1 rs2, software_cfu_read s 0 0, hlist, ?_⟩
  intro n
  have h := hlist (List.replicate n ⟨2, funct7, rs1, rs2⟩) (by
    intro c hc
    rw [List.eq_of_mem_replicate hc]
    exact ⟨rfl, h8, h16, h17, h18, h19⟩)
  rw [List.length_replicate] at h
  exact h

/-- Witness of C11: modifier `0b10100`, which no arm of the switch names, on a
state with a non-zero accumulator. -/
theorem C11_read_is_pure_witness :
    ((0b10100 : Int) ≠ 0b1000 ∧ (0b10100 : Int) ≠ 0b10000 ∧ (0b10100 : Int) ≠ 0b10001 ∧
      (0b10100 : Int) ≠ 0b10010 ∧ (0b10100 : Int) ≠ 0b10011) ∧
    software_cfu ⟨0x04030201, 0x12ED547A01FFFA32, 83⟩ 2 0b10100 5 6 =
      (83, ⟨0x04030201, 0x12ED547A01FFFA32, 83⟩) :=
  ⟨by decide,
   (C11_read_is_pure ⟨0x04030201, 0x12ED547A01FFFA32, 83⟩ 0b10100 5 6
    (by decide) (by decide) (by decide) (by decide) (by decide)).1⟩

/-- Claim C12: the zero-returning fallbacks are exact.  For every state and
operands, selector 1 with a modifier whose bit 2 is clear, and any selector
outside `0`, `1`, `2`, return 0 and leave codebook, weight-code word and
accumulator unchanged; every call produces a result (the checked engine never
gives `none`). -/
theorem C12_zero_fallbacks (s : CfuState) (funct3 funct7 : Int) (rs1 rs2 : Nat) :
    (Int.land funct7 0b100 = 0 → software_cfu s 1 funct7 rs1 rs2 = (0, s)) ∧
    (funct3 ≠ 0 → funct3 ≠ 1 → funct3 ≠ 2 → software_cfu s funct3 funct7 rs1 rs2 = (0, s)) ∧
    (software_cfu_checked s funct3 funct7 rs1 rs2).isSome = true := by
  refine ⟨software_cfu_sel1_clear s funct7 rs1 rs2, software_cfu_sel_other s funct3 funct7 rs1 rs2,
    ?_⟩
  rw [software_cfu_checked_some]
  rfl

/-- Witness of C12: selector 1 with modifier `0b11011` (bit 2 clear) and selector
`-1` with the same modifier, on a state with non-zero registers. -/
theorem C12_zero_fallbacks_witness :
    (Int.land 0b11011 0b100 = 0 ∧ (-1 : Int) ≠ 0 ∧ (-1 : Int) ≠ 1 ∧ (-1 : Int) ≠ 2) ∧
    software_cfu ⟨0x04030201, 0x12ED547A01FFFA32, 83⟩ 1 0b11011 5 6 =
      (0, ⟨0x04030201, 0x12ED547A01FFFA32, 83⟩) ∧
    software_cfu ⟨0x04030201, 0x12ED547A01FFFA32, 83⟩ (-1) 0b11011 5 6 =
      (0, ⟨0x04030201, 0x12ED547A01FFFA32, 83⟩) :=
  ⟨by decide,
   (C12_zero_fallbacks ⟨0x04030201, 0x12ED547A01FFFA32, 83⟩ (-1) 0b11011 5 6).1 (by decide),
   (C12_zero_fallbacks ⟨0x04030201, 0x12ED547A01FFFA32, 83⟩ (-1) 0b11011 5 6).2.1
    (by decide) (by decide) (by decide)⟩

/-- Claim C13: each register is changed only by its own operation.  For every call
on every state: the accumulator differs afterwards only if the selector is 2 and
the modifier is `0b1000` or one of `0b10000..0b10011`; the codebook only if the
selector is 0; the weight-code word only if the selector is 1 and modifier bit 2
is set.  So a codebook or weight store keeps the accumulator, and reset and
accumulate keep codebook and weight-code word. -/
theorem C13_register_frame (s : CfuState) (funct3 funct7 : Int) (rs1 rs2 : Nat) :
    ((software_cfu s funct3 funct7 rs1 rs2).2.acc ≠ s.acc →
      funct3 = 2 ∧ (funct7 = 0b1000 ∨ funct7 = 0b10000 ∨ funct7 = 0b10001 ∨
        funct7 = 0b10010 ∨ funct7 = 0b10011)) ∧
    ((software_cfu s funct3 funct7 rs1 rs2).2.clusters ≠ s.clusters → funct3 = 0) ∧
    ((software_cfu s funct3 funct7 rs1 rs2).2.weights ≠ s.weights →
      funct3 = 1 ∧ Int.land funct7 0b100 ≠ 0) ∧
    (software_cfu s 0 funct7 rs1 rs2).2.acc = s.acc ∧
    (software_cfu s 1 funct7 rs1 rs2).2.acc = s.acc ∧
    (software_cfu s 2 funct7 rs1 rs2).2.clusters = s.clusters ∧
    (software_cfu s 2 funct7 rs1 rs2).2.weights = s.weights := by
  refine ⟨software_cfu_acc_frame s funct3 funct7 rs1 rs2, ?_,
    software_cfu_weights_frame s funct3 funct7 rs1 rs2, ?_,
    (software_cfu_sel1_frame s funct7 rs1 rs2).2, (software_cfu_sel2_frame s funct7 rs1 rs2).1,
    (software_cfu_sel2_frame s funct7 rs1 rs2).2⟩
  · intro h
    by_contra h0
    exact h (software_cfu_clusters_of_ne s funct3 funct7 rs1 rs2 h0)
  · rw [software_cfu_storeCodebook]

/-- Witness of C13: an accumulate that changes the accumulator, a codebook store
that changes the codebook and a weight store that changes the weight-code word. -/
theorem C13_register_frame_witness :
    ((software_cfu ⟨0x04030201, 0x12ED547A01FFFA32, 0⟩ 2 0b10000 0x01010101 0x01010101).2.acc ≠ 0 ∧
      (software_cfu ⟨0x04030201, 0x12ED547A01FFFA32, 0⟩ 0 0 0 7).2.clusters ≠ 0x04030201 ∧
      (software_cfu ⟨0x04030201, 0x12ED547A01FFFA32, 0⟩ 1 0b100 1 2).2.weights
        ≠ 0x12ED547A01FFFA32) ∧
    ((2 : Int) = 2 ∧ ((0b10000 : Int) = 0b1000 ∨ (0b10000 : Int) = 0b10000 ∨
      (0b10000 : Int) = 0b10001 ∨ (0b10000 : Int) = 0b10010 ∨ (0b10000 : Int) = 0b10011)) ∧
    (0 : Int) = 0 ∧
    ((1 : Int) = 1 ∧ Int.land 0b100 0b100 ≠ 0) :=
  ⟨by decide,
   (C13_register_frame ⟨0x04030201, 0x12ED547A01FFFA32, 0⟩ 2 0b10000 0x01010101 0x01010101).1
    (by decide),
   (C13_register_frame ⟨0x04030201, 0x12ED547A01FFFA32, 0⟩ 0 0 0 7).2.1 (by decide),
   (C13_register_frame ⟨0x04030201, 0x12ED547A01FFFA32, 0⟩ 1 0b100 1 2).2.2.1 (by decide)⟩

/-- Claim C14: for every word and every `n` in `0..3`, `extract_byte(word, n)` is
the twos-complement signed reading of `b = (word >> 8n) & 0xFF`: it is `b` when
`b < 128` and `b - 256` otherwise, so it lies in `[-128, 127]` and is congruent to
`b` modulo 256 (byte `0xFF` reads `-1`, byte `0x80` reads `-128`, never 255 or
128), the shift staying inside the 32-bit word; the same holds for a codebook
centroid, whose index is an extracted code. -/
theorem C14_extract_byte_signed (word n : Nat) (hn : n < 4) :
    extract_byte word n =
      (if (word >>> (8 * n)) &&& 0xFF < 128 then (((word >>> (8 * n)) &&& 0xFF : Nat) : Int)
       else (((word >>> (8 * n)) &&& 0xFF : Nat) : Int) - 256) ∧
    (-128 ≤ extract_byte word n ∧ extract_byte word n ≤ 127) ∧
    (extract_byte word n - (((word >>> (8 * n)) &&& 0xFF : Nat) : Int)) % 256 = 0 ∧
    extract_byte_checked word n = some (extract_byte word n) ∧
    ((word >>> (8 * n)) &&& 0xFF = 0xFF → extract_byte word n = -1) ∧
    ((word >>> (8 * n)) &&& 0xFF = 0x80 → extract_byte word n = -128) ∧
    (∀ weights_codes i : Nat,
      extract_codes weights_codes i < 4 ∧
      extract_byte word (extract_codes weights_codes i) =
        sbyte_spec word (code_spec weights_codes i) ∧
      -128 ≤ extract_byte word (extract_codes weights_codes i) ∧
      extract_byte word (extract_codes weights_codes i) ≤ 127) := by
  have e : extract_byte word n = sbyte_spec word n := extract_byte_eq_sbyte word n
  have hb := extract_byte_bounds word n
  refine ⟨e, hb, ?_, extract_byte_checked_of_lt word hn, ?_, ?_, ?_⟩
  · rw [e]
    unfold sbyte_spec
    split <;> omega
  · intro h
    rw [e]
    unfold sbyte_spec
    rw [h]
    rfl
  · intro h
    rw [e]
    unfold sbyte_spec
    rw [h]
    rfl
  · intro wc i
    refine ⟨extract_codes_lt wc i, ?_, extract_byte_bounds word _⟩
    rw [extract_byte_eq_sbyte, extract_codes_eq_code]

/-- Witness of C14: bytes 3 and 1 of `0xFF7F80FE` are `0xFF` and `0x80`, read as
`-1` and `-128`. -/
theorem C14_extract_byte_signed_witness :
    (3 < 4 ∧ 1 < 4 ∧ (0xFF7F80FE >>> (8 * 3)) &&& 0xFF = 0xFF ∧
      (0xFF7F80FE >>> (8 * 1)) &&& 0xFF = 0x80) ∧
    extract_byte 0xFF7F80FE 3 = -1 ∧ extract_byte 0xFF7F80FE 1 = -128 :=
  ⟨by decide,
   (C14_extract_byte_signed 0xFF7F80FE 3 (by decide)).2.2.2.2.1 (by decide),
   (C14_extract_byte_signed 0xFF7F80FE 1 (by decide)).2.2.2.2.2.1 (by decide)⟩

/-- Claim C15: for every weight-code set and every position `n` in `0..7`,
`extract_codes` returns `(word >> 2n) & 0b11`, a value in `0..3`; so every
centroid lookup of `multiply_add` indexes one of the four codebook bytes, and with
the range conditions explicit (byte shift at most 24, code shift at most 14, set
shift at most 48) `multiply_add` and `software_cfu` never leave the range, for any
input; the conditions themselves exclude the next index. -/
theorem C15_codes_in_range (word n : Nat) (hn : n < 8) :
    extract_codes word n = (word >>> (2 * n)) &&& 0b11 ∧
    extract_codes word n < 4 ∧
    n * 2 ≤ 14 ∧
    extract_codes word n * 8 ≤ 24 ∧
    extract_codes_checked word n = some (extract_codes word n) ∧
    (∀ clus : Nat, extract_byte_checked clus (extract_codes word n)
      = some (extract_byte clus (extract_codes word n))) ∧
    (∀ rs1 rs2 clus weights_codes : Nat,
      multiply_add_checked rs1 rs2 clus weights_codes
        = some (multiply_add rs1 rs2 clus weights_codes)) ∧
    (∀ (s : CfuState) (funct3 funct7 : Int) (rs1 rs2 : Nat),
      software_cfu_checked s funct3 funct7 rs1 rs2
        = some (software_cfu s funct3 funct7 rs1 rs2)) ∧
    (∀ w : Nat, extract_byte_checked w 4 = none ∧ extract_codes_checked w 8 = none ∧
      extract_weight_set_checked w 4 = none) := by
  have hlt := extract_codes_lt word n
  refine ⟨extract_codes_eq_code word n, hlt, by omega, by omega, ?_, ?_,
    multiply_add_checked_some, software_cfu_checked_some, ?_⟩
  · unfold extract_codes_checked
    rw [if_pos (by omega)]
  · intro clus
    exact extract_byte_checked_of_lt clus hlt
  · intro w
    exact ⟨rfl, rfl, rfl⟩

/-- Witness of C15: code 7 of the weight-code set `0xFA32` is 3. -/
theorem C15_codes_in_range_witness :
    7 < 8 ∧ extract_codes 0xFA32 7 = (0xFA32 >>> (2 * 7)) &&& 0b11 ∧ extract_codes 0xFA32 7 = 3 :=
  ⟨by decide, (C15_codes_in_range 0xFA32 7 (by decide)).1, by decide⟩

/-- Claim C16: for all inputs the value of `multiply_add` lies in
`[-130048, 131072]` and both bounds are attained; every product lies in
`[-16256, 16384]` and, in each of the four iterations, the exact sums formed by
the two additions stay within `[-130048, 131072]`, far inside the `int32_t`
range, so nothing inside `multiply_add` wraps; the addition into the accumulator
does wrap (from `0xFFFFFFFF` a MAC of 1 gives 0). -/
theorem C16_multiply_add_bounds (rs1 rs2 clus weights_codes : Nat) :
    (-130048 ≤ multiply_add rs1 rs2 clus weights_codes ∧
      multiply_add rs1 rs2 clus weights_codes ≤ 131072) ∧
    multiply_add 0x7F7F7F7F 0x7F7F7F7F 0x80808080 0 = -130048 ∧
    multiply_add 0x80808080 0x80808080 0x80808080 0 = 131072 ∧
    (∀ i : Nat,
      (-16256 ≤ extract_byte clus (extract_codes weights_codes i) * extract_byte rs1 i ∧
        extract_byte clus (extract_codes weights_codes i) * extract_byte rs1 i ≤ 16384) ∧
      (-16256 ≤ extract_byte clus (extract_codes weights_codes (i + 4)) * extract_byte rs2 i ∧
        extract_byte clus (extract_codes weights_codes (i + 4)) * extract_byte rs2 i ≤ 16384)) ∧
    (∀ j : Nat, j < 4 →
      (-130048 ≤ (List.range j).foldl (multiply_add_body rs1 rs2 clus weights_codes) 0
          + extract_byte clus (extract_codes weights_codes j) * extract_byte rs1 j ∧
        (List.range j).foldl (multiply_add_body rs1 rs2 clus weights_codes) 0
          + extract_byte clus (extract_codes weights_codes j) * extract_byte rs1 j ≤ 131072) ∧
      (-130048 ≤ (List.range j).foldl (multiply_add_body rs1 rs2 clus weights_codes) 0
          + extract_byte clus (extract_codes weights_codes j) * extract_byte rs1 j
          + extract_byte clus (extract_codes weights_codes (j + 4)) * extract_byte rs2 j ∧
        (List.range j).foldl (multiply_add_body rs1 rs2 clus weights_codes) 0
          + extract_byte clus (extract_codes weights_codes j) * extract_byte rs1 j
          + extract_byte clus (extract_codes weights_codes (j + 4)) * extract_byte rs2 j
            ≤ 131072) ∧
      (List.range (j + 1)).foldl (multiply_add_body rs1 rs2 clus weights_codes) 0 =
        (List.range j).foldl (multiply_add_body rs1 rs2 clus weights_codes) 0
          + extract_byte clus (extract_codes weights_codes j) * extract_byte rs1 j
          + extract_byte clus (extract_codes weights_codes (j + 4)) * extract_byte rs2 j) ∧
    (software_cfu ⟨1, 0, 0xFFFFFFFF⟩ 2 0b10000 1 0).1 = 0 ∧
    multiply_add 1 0 1 (extract_weight_set 0 0) = 1 := by
  have hp1 : ∀ i : Nat,
      -16256 ≤ extract_byte clus (extract_codes weights_codes i) * extract_byte rs1 i ∧
        extract_byte clus (extract_codes weights_codes i) * extract_byte rs1 i ≤ 16384 :=
    fun i => product_bounds (extract_byte_bounds _ _) (extract_byte_bounds _ _)
  have hp2 : ∀ i : Nat,
      -16256 ≤ extract_byte clus (extract_codes weights_codes (i + 4)) * extract_byte rs2 i ∧
        extract_byte clus (extract_codes weights_codes (i + 4)) * extract_byte rs2 i ≤ 16384 :=
    fun i => product_bounds (extract_byte_bounds _ _) (extract_byte_bounds _ _)
  refine ⟨?_, by decide, by decide, fun i => ⟨hp1 i, hp2 i⟩, ?_, by decide, by decide⟩
  · have h := multiply_add_running_bounds rs1 rs2 clus weights_codes 4 (by omega)
    unfold multiply_add
    push_cast at h
    omega
  · intro j hj
    have h := multiply_add_running_bounds rs1 rs2 clus weights_codes j (by omega)
    have a1 := hp1 j
    have a2 := hp2 j
    refine ⟨by omega, by omega, ?_⟩
    rw [List.range_succ, List.foldl_append, List.foldl_cons, List.foldl_nil,
      multiply_add_body_exact _ _ _ _ _ j (by omega) (by omega)]
    omega

/-- Witness of C16: the fourth iteration (`j = 3`) on the inputs that attain the
upper bound. -/
theorem C16_multiply_add_bounds_witness :
    3 < 4 ∧
    (List.range (3 + 1)).foldl (multiply_add_body 0x80808080 0x80808080 0x80808080 0) 0 =
      (List.range 3).foldl (multiply_add_body 0x80808080 0x80808080 0x80808080 0) 0
        + extract_byte 0x80808080 (extract_codes 0 3) * extract_byte 0x80808080 3
        + extract_byte 0x80808080 (extract_codes 0 (3 + 4)) * extract_byte 0x80808080 3 ∧
    (List.range (3 + 1)).foldl (multiply_add_body 0x80808080 0x80808080 0x80808080 0) 0 = 131072 :=
  ⟨by decide,
   ((C16_multiply_add_bounds 0x80808080 0x80808080 0x80808080 0).2.2.2.2.1 3 (by decide)).2.2,
   by decide⟩

/-- Claim C17: for every state, 32-bit operands and every modifier with bit 2 set,
the word returned by selector 1 is exactly `operandA`, the low 32 bits of the new
weight-code word; `operandB` is stored in bits 32..63 of the register and has no
influence on the returned word. -/
theorem C17_store_weights_returns_operandA (s : CfuState) (funct7 : Int) (rs1 rs2 : Nat)
    (h7 : Int.land funct7 0b100 ≠ 0) (h1 : rs1 < 4294967296) (h2 : rs2 < 4294967296) :
    (software_cfu s 1 funct7 rs1 rs2).1 = rs1 ∧
    (software_cfu s 1 funct7 rs1 rs2).2.weights % 4294967296 = rs1 ∧
    (software_cfu s 1 funct7 rs1 rs2).2.weights / 4294967296 = rs2 ∧
    (∀ other : Nat, other < 4294967296 →
      (software_cfu s 1 funct7 rs1 other).1 = (software_cfu s 1 funct7 rs1 rs2).1) := by
  have e : ∀ b : Nat, b < 4294967296 →
      software_cfu s 1 funct7 rs1 b =
        ((b * 4294967296 + rs1) % 4294967296, { s with weights := b * 4294967296 + rs1 }) := by
    intro b hb
    rw [software_cfu_storeWeights s funct7 rs1 b h7 hb, shiftLeft_32_or b h1]
  refine ⟨?_, ?_, ?_, ?_⟩
  · rw [e rs2 h2]
    show (rs2 * 4294967296 + rs1) % 4294967296 = rs1
    omega
  · rw [e rs2 h2]
    show (rs2 * 4294967296 + rs1) % 4294967296 = rs1
    omega
  · rw [e rs2 h2]
    show (rs2 * 4294967296 + rs1) / 4294967296 = rs2
    omega
  · intro other ho
    rw [e rs2 h2, e other ho]
    show (other * 4294967296 + rs1) % 4294967296 = (rs2 * 4294967296 + rs1) % 4294967296
    omega

/-- Witness of C17: `operandA = 0x01FFFA32` with `operandB = 0x12ED547A`, modifier
`0b1111111` (bit 2 set). -/
theorem C17_store_weights_returns_operandA_witness :
    (Int.land 0b1111111 0b100 ≠ 0 ∧ 0x01FFFA32 < 4294967296 ∧ 0x12ED547A < 4294967296) ∧
    (software_cfu ⟨1, 2, 3⟩ 1 0b1111111 0x01FFFA32 0x12ED547A).1 = 0x01FFFA32 ∧
    (software_cfu ⟨1, 2, 3⟩ 1 0b1111111 0x01FFFA32 0x12ED547A).2.weights = 0x12ED547A01FFFA32 :=
  ⟨by decide,
   (C17_store_weights_returns_operandA ⟨1, 2, 3⟩ 0b1111111 0x01FFFA32 0x12ED547A
    (by decide) (by decide) (by decide)).1,
   by decide⟩

/-- Claim C18: accumulate with weight-set `k` depends only on slice `k` of the
weight-code word.  For `k < 4` and two states with the same codebook, the same
accumulator and the same bits `[16k, 16k+15]` of the weight-code word, selector 2
with modifier `0b10000 + k` and the same operands returns the same word and gives
the same new accumulator. -/
theorem C18_accumulate_slice_only (s t : CfuState) (a b k : Nat) (hk : k < 4)
    (hc : s.clusters = t.clusters) (ha : s.acc = t.acc)
    (hw : (s.weights >>> (16 * k)) &&& 0xFFFF = (t.weights >>> (16 * k)) &&& 0xFFFF) :
    (software_cfu s 2 (0b10000 + (k : Int)) a b).1 =
      (software_cfu t 2 (0b10000 + (k : Int)) a b).1 ∧
    (software_cfu s 2 (0b10000 + (k : Int)) a b).2.acc =
      (software_cfu t 2 (0b10000 + (k : Int)) a b).2.acc := by
  have e : weightSet_spec s.weights k = weightSet_spec t.weights k := hw
  rw [software_cfu_accumulate s a b k hk, software_cfu_accumulate t a b k hk, e, hc, ha]
  exact ⟨rfl, rfl⟩

/-- Witness of C18: set index 1; the two weight-code words share bits 16..31
(`0x01FF`) and differ in the other 48 bits. -/
theorem C18_accumulate_slice_only_witness :
    (1 < 4 ∧ (0x12ED547A01FFFA32 >>> (16 * 1)) &&& 0xFFFF
      = (0xFFFF000001FF5555 >>> (16 * 1)) &&& 0xFFFF) ∧
    (software_cfu ⟨0x04030201, 0x12ED547A01FFFA32, 83⟩ 2 (0b10000 + ((1 : Nat) : Int))
        0x05060708 0x01020304).1 =
      (software_cfu ⟨0x04030201, 0xFFFF000001FF5555, 83⟩ 2 (0b10000 + ((1 : Nat) : Int))
        0x05060708 0x01020304).1 ∧
    (software_cfu ⟨0x04030201, 0x12ED547A01FFFA32, 83⟩ 2 0b10001 0x05060708 0x01020304).1 = 201 :=
  ⟨by decide,
   (C18_accumulate_slice_only ⟨0x04030201, 0x12ED547A01FFFA32, 83⟩
      ⟨0x04030201, 0xFFFF000001FF5555, 83⟩ 0x05060708 0x01020304 1 (by decide) rfl rfl
      (by decide)).1,
   by decide⟩

/-- Claim C19: if the four codebook bytes read the same signed value `c`, then for
all weight codes and operands `multiply_add` is `c` times the sum of the four
signed bytes of `rs1` plus the four signed bytes of `rs2`, whatever the weight
codes; with the all-zero codebook (as in the initial state) every accumulate adds
0 and returns the 32-bit accumulator unchanged. -/
theorem C19_constant_codebook (rs1 rs2 clus weights_codes : Nat) (c : Int)
    (hc : ∀ i : Nat, i < 4 → extract_byte clus i = c) :
    multiply_add rs1 rs2 clus weights_codes =
      c * ((extract_byte rs1 0 + extract_byte rs1 1 + extract_byte rs1 2 + extract_byte rs1 3)
        + (extract_byte rs2 0 + extract_byte rs2 1 + extract_byte rs2 2 + extract_byte rs2 3)) ∧
    (∀ other : Nat, multiply_add rs1 rs2 clus other = multiply_add rs1 rs2 clus weights_codes) ∧
    (∀ (a b w : Nat), multiply_add a b 0 w = 0) ∧
    (∀ (s : CfuState) (a b k : Nat), k < 4 → s.clusters = 0 → s.acc < 4294967296 →
      software_cfu s 2 (0b10000 + (k : Int)) a b = (s.acc, s)) ∧
    (∀ (a b k : Nat), k < 4 →
      software_cfu CfuState.init 2 (0b10000 + (k : Int)) a b = (0, CfuState.init)) := by
  have hs : ∀ i : Nat, i < 4 → sbyte_spec clus i = c := by
    intro i hi
    rw [← extract_byte_eq_sbyte]
    exact hc i hi
  have hconst : ∀ w : Nat, multiply_add rs1 rs2 clus w =
      c * ((extract_byte rs1 0 + extract_byte rs1 1 + extract_byte rs1 2 + extract_byte rs1 3)
        + (extract_byte rs2 0 + extract_byte rs2 1 + extract_byte rs2 2 + extract_byte rs2 3)) := by
    intro w
    rw [multiply_add_eq_MAC_spec, MAC_spec_const rs1 rs2 clus w c hs]
    simp only [extract_byte_eq_sbyte]
  have hzero : ∀ (a b w : Nat), multiply_add a b 0 w = 0 := by
    intro a b w
    rw [multiply_add_eq_MAC_spec, MAC_spec_const a b 0 w 0 (fun i _ => sbyte_spec_zero i)]
    simp
  have hacc : ∀ (s : CfuState) (a b k : Nat), k < 4 → s.clusters = 0 → s.acc < 4294967296 →
      software_cfu s 2 (0b10000 + (k : Int)) a b = (s.acc, s) := by
    intro s a b k hk h0 hlt
    have hm : MAC_spec a b s.clusters (weightSet_spec s.weights k) = 0 := by
      rw [← multiply_add_eq_MAC_spec, h0, hzero]
    rw [software_cfu_accumulate s a b k hk, hm, Int.add_zero, toUInt32_natCast hlt]
  refine ⟨hconst weights_codes, ?_, hzero, hacc, ?_⟩
  · intro other
    rw [hconst other, hconst weights_codes]
  · intro a b k hk
    exact hacc CfuState.init a b k hk rfl (by decide)

/-- Witness of C19: codebook `0xFEFEFEFE` (every byte reads `-2`) with the operands
and weight-set 0 of the harness. -/
theorem C19_constant_codebook_witness :
    (∀ i : Nat, i < 4 → extract_byte 0xFEFEFEFE i = -2) ∧
    multiply_add 0x05060708 0x01020304 0xFEFEFEFE 0xFA32 =
      -2 * ((extract_byte 0x05060708 0 + extract_byte 0x05060708 1 + extract_byte 0x05060708 2
          + extract_byte 0x05060708 3)
        + (extract_byte 0x01020304 0 + extract_byte 0x01020304 1 + extract_byte 0x01020304 2
          + extract_byte 0x01020304 3)) ∧
    multiply_add 0x05060708 0x01020304 0xFEFEFEFE 0xFA32 = -72 :=
  ⟨by decide,
   (C19_constant_codebook 0x05060708 0x01020304 0xFEFEFEFE 0xFA32 (-2) (by decide)).1,
   by decide⟩

end SimdCfu
